import Mathlib

/-!
Verification of `tap_mongodb/streams.py` (class `CollectionStream`).

The source file implements a Singer tap stream over a MongoDB collection with
two replication branches in `get_records` (INCREMENTAL and LOG_BASED) and a
bookmark-advancing method `_increment_stream_state`.  This development embeds
those functions shallowly: MongoDB ObjectIds become natural numbers below
`16 ^ 24` (twelve bytes, rendered as twenty-four hex characters), documents and
change events become explicit structures, the change stream becomes the list of
successive `try_next` results, and Python exceptions become explicit error
values.
-/

namespace TapMongodb

/-! ### ObjectId rendering and parsing

`str(ObjectId)` renders twelve bytes as a twenty-four character lowercase hex
string; `ObjectId(s)` accepts exactly a twenty-four character hex string and
raises `InvalidId` otherwise.  We model an ObjectId as a `Nat` (below
`16 ^ 24`). -/

/-- The lowercase hex character for a digit value (`0`–`9`, `a`–`f`). -/
def hexDigitChar (n : Nat) : Char :=
  if n < 10 then Char.ofNat (48 + n) else Char.ofNat (87 + n)

/-- The value of a hex character; `none` when the character is not a hex digit
(`bson` accepts both lowercase and uppercase hex). -/
def hexCharVal (c : Char) : Option Nat :=
  if 48 ≤ c.toNat ∧ c.toNat ≤ 57 then some (c.toNat - 48)
  else if 97 ≤ c.toNat ∧ c.toNat ≤ 102 then some (c.toNat - 87)
  else if 65 ≤ c.toNat ∧ c.toNat ≤ 70 then some (c.toNat - 55)
  else none

/-- The `k` least significant hex digits of `n`, most significant first. -/
def renderOidAux : Nat → Nat → List Char
  | 0, _ => []
  | k + 1, n => renderOidAux k (n / 16) ++ [hexDigitChar (n % 16)]

/-- `str(object_id)`: the twenty-four character lowercase hex rendering. -/
def renderOid (n : Nat) : String :=
  String.mk (renderOidAux 24 n)

/-- Horner evaluation of a hex digit string; `none` on a non-hex character. -/
def parseOidChars : List Char → Nat → Option Nat
  | [], acc => some acc
  | c :: cs, acc =>
    match hexCharVal c with
    | none => none
    | some v => parseOidChars cs (16 * acc + v)

/-- `ObjectId(s)`: parse a bookmark string as an ObjectId; `none` models the
`InvalidId` exception (wrong length or a non-hex character). -/
def parseOid (s : String) : Option Nat :=
  if s.data.length = 24 then parseOidChars s.data 0 else none

/-- `ObjectId.from_datetime(dt)`: the timestamp occupies the four leading bytes
and the remaining eight bytes are zero, so the value is `ts * 16 ^ 16` where
`ts` is the epoch-seconds timestamp. -/
def oidFromTimestamp (ts : Nat) : Nat :=
  ts * 16 ^ 16

theorem hexCharVal_hexDigitChar {d : Nat} (h : d < 16) :
    hexCharVal (hexDigitChar d) = some d := by
  interval_cases d <;> decide

theorem length_renderOidAux (k n : Nat) : (renderOidAux k n).length = k := by
  induction k generalizing n with
  | zero => rfl
  | succ k ih => simp [renderOidAux, ih]

theorem parseOidChars_append (xs ys : List Char) (acc : Nat) :
    parseOidChars (xs ++ ys) acc =
      (parseOidChars xs acc).bind (fun a => parseOidChars ys a) := by
  induction xs generalizing acc with
  | nil => rfl
  | cons c cs ih =>
    simp only [List.cons_append, parseOidChars]
    cases hexCharVal c with
    | none => rfl
    | some v => simp [ih]

theorem parseOidChars_renderOidAux (k : Nat) :
    ∀ n acc, parseOidChars (renderOidAux k n) acc = some (acc * 16 ^ k + n % 16 ^ k) := by
  induction k with
  | zero =>
    intro n acc
    simp [renderOidAux, parseOidChars, Nat.mod_one]
  | succ k ih =>
    intro n acc
    have hdig : n % 16 < 16 := Nat.mod_lt _ (by norm_num)
    have hmod : n % 16 ^ (k + 1) = n % 16 + 16 * (n / 16 % 16 ^ k) := by
      rw [show (16 : Nat) ^ (k + 1) = 16 * 16 ^ k by ring]
      exact Nat.mod_mul
    rw [renderOidAux, parseOidChars_append, ih (n / 16) acc]
    show parseOidChars [hexDigitChar (n % 16)] (acc * 16 ^ k + n / 16 % 16 ^ k)
      = some (acc * 16 ^ (k + 1) + n % 16 ^ (k + 1))
    simp only [parseOidChars, hexCharVal_hexDigitChar hdig]
    rw [hmod]
    congr 1
    ring

/-- Round trip: parsing the rendered hex string of an ObjectId value recovers
the value. -/
theorem parseOid_renderOid {n : Nat} (h : n < 16 ^ 24) :
    parseOid (renderOid n) = some n := by
  have h24 : (renderOid n).data.length = 24 := length_renderOidAux 24 n
  have hp : parseOidChars (renderOid n).data 0 = some (0 * 16 ^ 24 + n % 16 ^ 24) :=
    parseOidChars_renderOidAux 24 n 0
  unfold parseOid
  rw [if_pos h24, hp, Nat.zero_mul, Nat.zero_add, Nat.mod_eq_of_lt h]

/-- A rendered ObjectId is a nonempty string (it has twenty-four characters),
hence truthy in Python. -/
theorem renderOid_ne_empty (n : Nat) : renderOid n ≠ "" := by
  intro hcontra
  have : (renderOid n).data.length = 24 := length_renderOidAux 24 n
  rw [hcontra] at this
  simp at this

/-! ### Source documents and the INCREMENTAL branch of `get_records`

`streams.py` lines 102–127: resolve the starting ObjectId from the bookmark (or
from `start_date` when the bookmark is falsy), query
`self._collection.find({"_id": {"$gt": start_date}}).sort([("_id", ASCENDING)])`
and emit `{"_id": str(object_id), "document": record}` per result, plus
`_sdc_batched_at` when `add_record_metadata` is set. -/

/-- A document stored in the source collection: its `_id` ObjectId value and an
opaque payload standing for the remaining fields. -/
structure SourceDoc where
  oid : Nat
  body : String
deriving DecidableEq

/-- The MongoDB filter `{"_id": {"$gt": start}}`.  When `start` is `None`
(Python left `start_date = None` after an unparseable bookmark), the BSON query
`{"$gt": null}` matches no document: comparison query operators only compare
within the null type bracket, and nothing is greater than null there. -/
def matchesIdGt (start : Option Nat) (d : SourceDoc) : Bool :=
  match start with
  | some s => decide (s < d.oid)
  | none => false

/-- `find({"_id": {"$gt": start}}).sort([("_id", ASCENDING)])`: the documents
passing the filter, sorted ascending by `_id` (the server sorts; `_id` values
are unique, so any correct sort yields the same list). -/
def findIdGtSorted (coll : List SourceDoc) (start : Option Nat) : List SourceDoc :=
  List.insertionSort (fun a b => a.oid ≤ b.oid) (coll.filter (matchesIdGt start))

/-- A record emitted by the INCREMENTAL branch:
`{"_id": str(object_id), "document": record}` plus the optional
`_sdc_batched_at` timestamp. -/
structure IncRecord where
  _id : String
  document : SourceDoc
  sdcBatchedAt : Option String
deriving DecidableEq

/-- Lines 103–115: the starting ObjectId.  `if bookmark:` is Python truthiness
(`None` and `""` are falsy and fall through to the `start_date` branch);
a truthy bookmark is parsed with `ObjectId(bookmark)` and an `InvalidId`
failure leaves `start_date = None`.  `startDateTs` is the epoch-seconds value
of the configured `start_date` (default `"1970-01-01"`, which
`strptime_to_utc` maps to epoch second 0). -/
def incrementalStart (startDateTs : Nat) (bookmark : Option String) : Option Nat :=
  match bookmark with
  | some b => if b = "" then some (oidFromTimestamp startDateTs) else parseOid b
  | none => some (oidFromTimestamp startDateTs)

/-- Lines 102–127: the INCREMENTAL branch of `get_records`.  `now` stands for
`datetime.utcnow().isoformat()`. -/
def incremental_get_records (coll : List SourceDoc) (startDateTs : Nat)
    (bookmark : Option String) (addMetadata : Bool) (now : String) : List IncRecord :=
  (findIdGtSorted coll (incrementalStart startDateTs bookmark)).map fun d =>
    { _id := renderOid d.oid
      document := d
      sdcBatchedAt := if addMetadata then some now else none }

/-! ### The LOG_BASED branch of `get_records`

`streams.py` lines 129–176: build the change-stream options, build the
operation-type allow-list from config, then drain the change stream with
`try_next` until a `None` poll arrives after at least one yielded record.  The
change stream is modelled as the list of successive `try_next` results while
the cursor is alive. -/

/-- A raw change-stream event as returned by `try_next`.  `fullDocument` is
`none` when the BSON event carries no `fullDocument` field — MongoDB omits it
on `delete` events even under the `updateLookup` option, so
`record["fullDocument"]` raises `KeyError` there. -/
structure ChangeEvent where
  resumeToken : String
  operationType : String
  fullDocument : Option SourceDoc
  clusterTime : Nat
  ns : String
deriving DecidableEq

/-- Opaque rendering of `datetime.isoformat()` for a cluster timestamp. -/
def isoformat (t : Nat) : String :=
  toString t

/-- A record emitted by the LOG_BASED branch (lines 157–174). -/
structure LogRecord where
  _id : String
  document : SourceDoc
  operationType : String
  clusterTime : String
  ns : String
  sdcExtractedAt : Option String
  sdcBatchedAt : Option String
  sdcDeletedAt : Option String
deriving DecidableEq

/-- Lines 152–174: normalize one allow-listed event into a record.  The
`Except.error` value models the `KeyError` that `record["fullDocument"]`
raises when the event has no `fullDocument` field.  `now` stands for
`datetime.utcnow().isoformat()`. -/
def parse_change_event (addMetadata : Bool) (now : String) (ev : ChangeEvent) :
    Except String LogRecord :=
  match ev.fullDocument with
  | none => Except.error "KeyError: fullDocument"
  | some doc =>
    Except.ok
      { _id := ev.resumeToken
        document := doc
        operationType := ev.operationType
        clusterTime := isoformat ev.clusterTime
        ns := ev.ns
        sdcExtractedAt := if addMetadata then some (isoformat ev.clusterTime) else none
        sdcBatchedAt := if addMetadata then some now else none
        sdcDeletedAt :=
          if addMetadata ∧ ev.operationType = "delete" then some (isoformat ev.clusterTime)
          else none }

/-- Loop state of the draining loop: `has_seen_a_record` and `keep_open`. -/
structure LogState where
  hasSeenARecord : Bool
  keepOpen : Bool
deriving DecidableEq

/-- Lines 136–176: the `while change_stream.alive and keep_open` draining loop.
`polls` is the list of successive `try_next` results while the cursor is
alive (an exhausted list models the cursor dying).  Returns the yielded
records and the final loop state, or the propagated exception. -/
def runChangeStream (allow : List String) (addMetadata : Bool) (now : String) :
    LogState → List (Option ChangeEvent) → Except String (List LogRecord × LogState)
  | st, [] => Except.ok ([], st)
  | st, poll :: polls =>
    if st.keepOpen = false then Except.ok ([], st)
    else
      match poll with
      | none =>
        if st.hasSeenARecord then
          runChangeStream allow addMetadata now ⟨st.hasSeenARecord, false⟩ polls
        else
          runChangeStream allow addMetadata now st polls
      | some ev =>
        if ev.operationType ∈ allow then
          match parse_change_event addMetadata now ev with
          | Except.error e => Except.error e
          | Except.ok r =>
            match runChangeStream allow addMetadata now ⟨true, st.keepOpen⟩ polls with
            | Except.error e => Except.error e
            | Except.ok (rs, stFinal) => Except.ok (r :: rs, stFinal)
        else
          runChangeStream allow addMetadata now st polls

/-- Lines 130–132: the change-stream options passed to `watch`. -/
structure ChangeStreamOptions where
  fullDocumentOpt : String
  resumeAfter : Option String
deriving DecidableEq

/-- `{"full_document": "updateLookup"}` plus `resume_after` when the bookmark
is not `None`. -/
def change_stream_options (bookmark : Option String) : ChangeStreamOptions :=
  ⟨"updateLookup", bookmark⟩

/-- Lines 129–176: the LOG_BASED branch of `get_records`.  `watch` stands for
`self._collection.watch(**change_stream_options)`: the source's poll sequence
as a function of the options.  `set(self.config.get("operation_types"))` on an
absent option is `set(None)` and raises `TypeError` before the change stream
is opened; there is no default allow-list. -/
def log_based_get_records (operationTypesCfg : Option (List String))
    (addMetadata : Bool) (now : String) (bookmark : Option String)
    (watch : ChangeStreamOptions → List (Option ChangeEvent)) :
    Except String (List LogRecord) :=
  let opts := change_stream_options bookmark
  match operationTypesCfg with
  | none => Except.error "TypeError: operation_types is not configured"
  | some allow =>
    match runChangeStream allow addMetadata now ⟨false, true⟩ (watch opts) with
    | Except.error e => Except.error e
    | Except.ok (rs, _) => Except.ok rs

/-! ### The bookmark store: `_increment_stream_state`

`streams.py` lines 49–94.  The method validates the replication method and the
replication key, computes `treat_as_sorted`, and delegates to
`singer_sdk.helpers._state.increment_state`, an external dependency whose code
is not under src/. -/

/-- Outcome of an advance call: the stored bookmark after the call and the
raised error, if any (a raise leaves the stored bookmark unchanged). -/
structure AdvanceOutcome (α : Type) where
  stored : Option α
  error : Option String
deriving DecidableEq

/-- Modelled from the spec: `singer_sdk.helpers._state.increment_state` is an
external dependency not under src/.  Spec §4.1 `advance`: when `is_sorted` is
true, a candidate comparing less than the stored position fails with
`OutOfOrderError` and leaves the store unchanged, otherwise the candidate is
stored; when `is_sorted` is false, the candidate overwrites the stored
position unconditionally.  A first advance with no stored position stores the
candidate. -/
def increment_state {α : Type} [LinearOrder α] (stored : Option α) (candidate : α)
    (isSorted : Bool) : AdvanceOutcome α :=
  match stored with
  | none => ⟨some candidate, none⟩
  | some s =>
    if isSorted ∧ candidate < s then ⟨some s, some "OutOfOrderError"⟩
    else ⟨some candidate, none⟩

/-- The stream attributes `_increment_stream_state` reads.  `replication_key`
is `none` for Python `None`; `CollectionStream` itself sets it to `"_id"`. -/
structure StreamConfig where
  replication_method : String
  replication_key : Option String
  is_sorted : Bool
  state_partitioning_keys : Option (List String)
deriving DecidableEq

/-- `singer_sdk.streams.core.REPLICATION_INCREMENTAL`. -/
def REPLICATION_INCREMENTAL : String := "INCREMENTAL"

/-- `singer_sdk.streams.core.REPLICATION_LOG_BASED`. -/
def REPLICATION_LOG_BASED : String := "LOG_BASED"

/-- Lines 84–87: `treat_as_sorted = self.is_sorted`, then
`if not treat_as_sorted and self.state_partitioning_keys is not None:
treat_as_sorted = False` (the branch only reassigns `False` when the value is
already `False`). -/
def treatAsSorted (c : StreamConfig) : Bool :=
  let t := c.is_sorted
  if t = false ∧ c.state_partitioning_keys ≠ none then false else t

/-- Lines 49–94: `_increment_stream_state`.  Validates the replication method,
then the replication key (`if not self.replication_key` — Python falsiness, so
`None` and `""` both fail), then advances the bookmark through
`increment_state` with `is_sorted=treat_as_sorted`.  `stored` is the current
bookmark of the state entry for the record's context. -/
def _increment_stream_state {α : Type} [LinearOrder α] (c : StreamConfig)
    (stored : Option α) (latest : α) : AdvanceOutcome α :=
  if c.replication_method ≠ REPLICATION_INCREMENTAL
      ∧ c.replication_method ≠ REPLICATION_LOG_BASED then
    ⟨stored, some "ValueError: Unrecognized replication method"⟩
  else if c.replication_key.getD "" = "" then
    ⟨stored, some "ValueError: Could not detect replication key"⟩
  else
    increment_state stored latest (treatAsSorted c)

/-- Fold `_increment_stream_state` over successive replication-key values,
stopping at the first raised error (the raise propagates out of the caller). -/
def advanceAll {α : Type} [LinearOrder α] (c : StreamConfig) :
    Option α → List α → AdvanceOutcome α
  | st, [] => ⟨st, none⟩
  | st, v :: vs =>
    match _increment_stream_state c st v with
    | ⟨st2, none⟩ => advanceAll c st2 vs
    | ⟨st2, some e⟩ => ⟨st2, some e⟩

/-- The attributes of `CollectionStream` itself in INCREMENTAL mode:
`replication_key = "_id"` (line 29); `is_sorted` and
`state_partitioning_keys` are inherited unchanged from the SDK `Stream` base
class, which leaves streams unsorted and unpartitioned by default. -/
def collectionStreamConfig : StreamConfig :=
  { replication_method := REPLICATION_INCREMENTAL
    replication_key := some "_id"
    is_sorted := false
    state_partitioning_keys := none }

/-! ### Claims about the LOG_BASED draining loop -/

/-- Claim C2: in LogBased mode, while the cursor is alive and no record has
yet been yielded, a poll returning none never terminates the draining loop
(the loop runs through every available poll with `keep_open` still true);
once at least one record has been yielded, the first poll returning none sets
the loop to close and the invocation ends with no further record. -/
theorem C2_logbased_drain_policy (allow : List String) (addMetadata : Bool) (now : String) :
    (∀ n : Nat,
      runChangeStream allow addMetadata now ⟨false, true⟩ (List.replicate n none)
        = Except.ok ([], ⟨false, true⟩))
    ∧ ∀ (st : LogState) (polls : List (Option ChangeEvent)),
        st.hasSeenARecord = true → st.keepOpen = true →
        runChangeStream allow addMetadata now st (none :: polls)
          = Except.ok ([], ⟨true, false⟩) := by
  constructor
  · intro n
    induction n with
    | zero => rfl
    | succ n ih => simpa [List.replicate, runChangeStream] using ih
  · intro st polls h1 h2
    obtain ⟨hs, ko⟩ := st
    simp only at h1 h2
    subst h1 h2
    cases polls with
    | nil => rfl
    | cons p ps => simp [runChangeStream]

/-- Witness for C2 at concrete inputs: two idle polls with nothing yet seen
keep the loop open to the end; an idle poll after a record has been seen
closes immediately even with more polls pending. -/
theorem C2_logbased_drain_policy_witness :
    runChangeStream [] false "t" ⟨false, true⟩ (List.replicate 2 none)
        = Except.ok ([], ⟨false, true⟩)
    ∧ runChangeStream [] false "t" ⟨true, true⟩ [none, none]
        = Except.ok ([], ⟨true, false⟩) :=
  ⟨(C2_logbased_drain_policy [] false "t").1 2,
   (C2_logbased_drain_policy [] false "t").2 ⟨true, true⟩ [none] rfl rfl⟩

/-- Claim C6: in LogBased mode, a polled event whose `operationType` is not in
the allow-list is discarded: the loop behaves exactly as if the poll had not
happened, so the event never appears in the output and leaves
`has_seen_a_record` (and hence the closing decision) untouched. -/
theorem C6_filtered_event_discarded (allow : List String) (addMetadata : Bool)
    (now : String) (st : LogState) (ev : ChangeEvent)
    (polls : List (Option ChangeEvent)) (h : ev.operationType ∉ allow) :
    runChangeStream allow addMetadata now st (some ev :: polls)
      = runChangeStream allow addMetadata now st polls := by
  by_cases hk : st.keepOpen = false
  · cases polls with
    | nil => simp [runChangeStream, hk]
    | cons p ps => simp [runChangeStream, hk]
  · simp [runChangeStream, hk, h]

/-- Witness for C6 at a concrete input: a delete event is dropped when the
allow-list holds only insert, with the state untouched. -/
theorem C6_filtered_event_discarded_witness :
    runChangeStream ["insert"] false "t" ⟨false, true⟩
        [some ⟨"tok1", "delete", none, 5, "db.c"⟩]
      = runChangeStream ["insert"] false "t" ⟨false, true⟩ [] :=
  C6_filtered_event_discarded ["insert"] false "t" ⟨false, true⟩
    ⟨"tok1", "delete", none, 5, "db.c"⟩ [] (by decide)

/-- Claim C7 fails on the code: a delete change event carries no
`fullDocument` field, so `record["fullDocument"]` (line 159) raises `KeyError`
for an allow-listed delete event instead of yielding a normalized record; the
error propagates out of `get_records`. -/
theorem C7_delete_event_keyerror :
    parse_change_event true "t" ⟨"tok1", "delete", none, 5, "db.c"⟩
        = Except.error "KeyError: fullDocument"
    ∧ log_based_get_records (some ["insert", "update", "replace", "delete"]) true "t"
        none (fun _ => [some ⟨"tok1", "delete", none, 5, "db.c"⟩])
        = Except.error "KeyError: fullDocument" :=
  ⟨rfl, rfl⟩

/-- Claim C10: when the `operation_types` option is absent, the LOG_BASED
branch fails while building the allow-list (`set(None)` raises `TypeError`),
for every bookmark and every possible change-stream behavior, before any
record is yielded: there is no default allow-list. -/
theorem C10_missing_operation_types (addMetadata : Bool) (now : String)
    (bookmark : Option String)
    (watch : ChangeStreamOptions → List (Option ChangeEvent)) :
    log_based_get_records none addMetadata now bookmark watch
      = Except.error "TypeError: operation_types is not configured" := rfl

/-! ### Claims about `_increment_stream_state` -/

theorem treatAsSorted_of_is_sorted {c : StreamConfig} (hs : c.is_sorted = true) :
    treatAsSorted c = true := by
  simp [treatAsSorted, hs]

theorem increment_stream_state_valid {α : Type} [LinearOrder α] {c : StreamConfig}
    (hm : c.replication_method = REPLICATION_INCREMENTAL
      ∨ c.replication_method = REPLICATION_LOG_BASED)
    (hk : c.replication_key.getD "" ≠ "") (st : Option α) (v : α) :
    _increment_stream_state c st v = increment_state st v (treatAsSorted c) := by
  have hm2 : ¬(c.replication_method ≠ REPLICATION_INCREMENTAL
      ∧ c.replication_method ≠ REPLICATION_LOG_BASED) := by
    rcases hm with h | h <;> simp [h]
  simp [_increment_stream_state, hm2, hk]

/-- Along a strictly increasing chain, advancing from `some s` lands on the
last element and never errors (in either sortedness mode: an increasing
candidate is never compared less than the stored position). -/
theorem advanceAll_increasing_chain {α : Type} [LinearOrder α] {c : StreamConfig}
    (hm : c.replication_method = REPLICATION_INCREMENTAL
      ∨ c.replication_method = REPLICATION_LOG_BASED)
    (hk : c.replication_key.getD "" ≠ "") :
    ∀ (vs : List α) (s : α), List.Chain' (· < ·) (s :: vs) →
      advanceAll c (some s) vs
        = ⟨some ((s :: vs).getLast (List.cons_ne_nil s vs)), none⟩ := by
  intro vs
  induction vs with
  | nil => intro s _; rfl
  | cons v vs ih =>
    intro s hchain
    have hsv : s < v := List.chain'_cons.mp hchain |>.1
    have htail : List.Chain' (· < ·) (v :: vs) := List.chain'_cons.mp hchain |>.2
    have hstep : _increment_stream_state c (some s) v = ⟨some v, none⟩ := by
      rw [increment_stream_state_valid hm hk]
      have : ¬((treatAsSorted c : Prop) ∧ v < s) := fun h => absurd h.2 (not_lt.mpr hsv.le)
      simp [increment_state, this]
    have hred : advanceAll c (some s) (v :: vs) = advanceAll c (some v) vs := by
      simp only [advanceAll, hstep]
    rw [hred, ih v htail]
    simp [List.getLast_cons]

/-- Claim C3: on a sorted stream (`is_sorted` true, with the class defaults
otherwise), a sequence of `_increment_stream_state` calls with strictly
increasing replication-key values ends with the stored bookmark equal to the
last value and no error; a call whose value is less than the stored bookmark
fails with the out-of-order error and leaves the stored bookmark unchanged. -/
theorem C3_sorted_bookmark_monotone {α : Type} [LinearOrder α] (c : StreamConfig)
    (hm : c.replication_method = REPLICATION_INCREMENTAL
      ∨ c.replication_method = REPLICATION_LOG_BASED)
    (hk : c.replication_key.getD "" ≠ "")
    (hs : c.is_sorted = true) :
    (∀ (v : α) (vs : List α), List.Chain' (· < ·) (v :: vs) →
        advanceAll c none (v :: vs)
          = ⟨some ((v :: vs).getLast (List.cons_ne_nil v vs)), none⟩)
    ∧ ∀ (o v : α), v < o →
        _increment_stream_state c (some o) v = ⟨some o, some "OutOfOrderError"⟩ := by
  have hts : treatAsSorted c = true := treatAsSorted_of_is_sorted hs
  constructor
  · intro v vs hchain
    have hfirst : _increment_stream_state c none v = ⟨some v, none⟩ := by
      rw [increment_stream_state_valid hm hk]
      rfl
    have hred : advanceAll c none (v :: vs) = advanceAll c (some v) vs := by
      simp only [advanceAll, hfirst]
    rw [hred, advanceAll_increasing_chain hm hk vs v hchain]
  · intro o v hvo
    rw [increment_stream_state_valid hm hk]
    have : (treatAsSorted c : Prop) ∧ v < o := ⟨by simp [hts], hvo⟩
    simp [increment_state, this]

/-- Witness for C3 at concrete inputs: advancing through `1, 2, 3` stores `3`
with no error, and a candidate `3` against a stored `5` raises the
out-of-order error with the store unchanged. -/
theorem C3_sorted_bookmark_monotone_witness :
    advanceAll ⟨"INCREMENTAL", some "_id", true, none⟩ none [1, 2, 3]
        = ⟨some 3, none⟩
    ∧ _increment_stream_state ⟨"INCREMENTAL", some "_id", true, none⟩ (some 5) 3
        = ⟨some 5, some "OutOfOrderError"⟩ := by
  have h := C3_sorted_bookmark_monotone (α := Nat)
    ⟨"INCREMENTAL", some "_id", true, none⟩ (Or.inl rfl) (by decide) rfl
  exact ⟨by simpa using h.1 1 [2, 3] (by simp [List.chain'_cons]), h.2 5 3 (by decide)⟩

/-- Claim C5: a stream configured with state partitioning keys (whose
`is_sorted` is the unsorted class default, as the partitioned design
requires) advances the bookmark with `is_sorted` false, and under the
spec-modelled advance any candidate — including one comparing less than the
stored position — overwrites the stored position with no error possible. -/
theorem C5_partitioned_unsorted_overwrite {α : Type} [LinearOrder α] (c : StreamConfig)
    (hm : c.replication_method = REPLICATION_INCREMENTAL
      ∨ c.replication_method = REPLICATION_LOG_BASED)
    (hk : c.replication_key.getD "" ≠ "")
    (hs : c.is_sorted = false)
    (hp : c.state_partitioning_keys ≠ none)
    (st : Option α) (v : α) :
    treatAsSorted c = false ∧ _increment_stream_state c st v = ⟨some v, none⟩ := by
  have hts : treatAsSorted c = false := by simp [treatAsSorted, hs, hp]
  refine ⟨hts, ?_⟩
  rw [increment_stream_state_valid hm hk, hts]
  cases st with
  | none => rfl
  | some s => simp [increment_state]

/-- Witness for C5 at a concrete input: a partitioned stream with stored `5`
accepts the smaller candidate `3`, which overwrites the store without
error. -/
theorem C5_partitioned_unsorted_overwrite_witness :
    treatAsSorted ⟨"INCREMENTAL", some "_id", false, some ["p"]⟩ = false
    ∧ _increment_stream_state ⟨"INCREMENTAL", some "_id", false, some ["p"]⟩
        (some 5) 3 = ⟨some 3, none⟩ :=
  C5_partitioned_unsorted_overwrite ⟨"INCREMENTAL", some "_id", false, some ["p"]⟩
    (Or.inl rfl) (by decide) rfl (by decide) (some 5) 3

/-- Claim C9: `_increment_stream_state` fails with the
unsupported-replication-method error whenever the replication method is
outside INCREMENTAL and LOG_BASED, and fails with the missing-replication-key
error whenever, for a recognized method, no replication key is configured; in
both cases the stored bookmark is left unchanged. -/
theorem C9_config_validation_errors {α : Type} [LinearOrder α] (c : StreamConfig)
    (st : Option α) (v : α) :
    (c.replication_method ≠ REPLICATION_INCREMENTAL →
      c.replication_method ≠ REPLICATION_LOG_BASED →
      _increment_stream_state c st v
        = ⟨st, some "ValueError: Unrecognized replication method"⟩)
    ∧ ((c.replication_method = REPLICATION_INCREMENTAL
        ∨ c.replication_method = REPLICATION_LOG_BASED) →
      c.replication_key.getD "" = "" →
      _increment_stream_state c st v
        = ⟨st, some "ValueError: Could not detect replication key"⟩) := by
  constructor
  · intro h1 h2
    simp [_increment_stream_state, h1, h2]
  · intro hm hk
    have hm2 : ¬(c.replication_method ≠ REPLICATION_INCREMENTAL
        ∧ c.replication_method ≠ REPLICATION_LOG_BASED) := by
      rcases hm with h | h <;> simp [h]
    simp [_increment_stream_state, hm2, hk]

/-- Witness for C9 at concrete inputs: a FULL_TABLE stream fails with the
method error, an INCREMENTAL stream without a replication key fails with the
key error, the stored bookmark untouched in both cases. -/
theorem C9_config_validation_errors_witness :
    _increment_stream_state ⟨"FULL_TABLE", some "_id", false, none⟩ (some 5) 7
        = ⟨some 5, some "ValueError: Unrecognized replication method"⟩
    ∧ _increment_stream_state ⟨"INCREMENTAL", none, false, none⟩ (some 5) 7
        = ⟨some 5, some "ValueError: Could not detect replication key"⟩ :=
  ⟨(C9_config_validation_errors ⟨"FULL_TABLE", some "_id", false, none⟩ (some 5) 7).1
      (by decide) (by decide),
   (C9_config_validation_errors ⟨"INCREMENTAL", none, false, none⟩ (some 5) 7).2
      (Or.inl rfl) rfl⟩

/-! ### Claims about the INCREMENTAL branch -/

instance : IsTrans SourceDoc (fun a b => a.oid ≤ b.oid) :=
  ⟨fun _ _ _ h1 h2 => le_trans h1 h2⟩

instance : IsTotal SourceDoc (fun a b => a.oid ≤ b.oid) :=
  ⟨fun a b => Nat.le_total a.oid b.oid⟩

instance : IsTrans SourceDoc (fun a b => a.oid < b.oid) :=
  ⟨fun _ _ _ h1 h2 => lt_trans h1 h2⟩

theorem matchesIdGt_some (S : Nat) :
    matchesIdGt (some S) = fun d => decide (S < d.oid) :=
  funext fun _ => rfl

theorem sorted_findIdGtSorted (coll : List SourceDoc) (start : Option Nat) :
    List.Sorted (fun a b : SourceDoc => a.oid ≤ b.oid) (findIdGtSorted coll start) :=
  List.sorted_insertionSort _ _

theorem perm_findIdGtSorted (coll : List SourceDoc) (start : Option Nat) :
    (findIdGtSorted coll start).Perm (coll.filter (matchesIdGt start)) :=
  List.perm_insertionSort _ _

/-- Claim C1: in Incremental mode, with starting position `S` resolved by the
code (the parsed bookmark when one exists, otherwise the identifier derived
from the configured `start_date`), `get_records` yields exactly the source
documents whose identifier is strictly greater than `S`, in ascending
identifier order, each emitted with `_id` the identifier rendered as text and
`document` the full source document. -/
theorem C1_incremental_exact (coll : List SourceDoc) (startDateTs : Nat)
    (bookmark : Option String) (addMetadata : Bool) (now : String) (S : Nat)
    (hS : incrementalStart startDateTs bookmark = some S)
    (hnd : (coll.map SourceDoc.oid).Nodup) :
    ((incremental_get_records coll startDateTs bookmark addMetadata now).map
        IncRecord.document).Perm (coll.filter fun d => decide (S < d.oid))
    ∧ List.Chain' (fun r1 r2 => r1.document.oid < r2.document.oid)
        (incremental_get_records coll startDateTs bookmark addMetadata now)
    ∧ ∀ r ∈ incremental_get_records coll startDateTs bookmark addMetadata now,
        r._id = renderOid r.document.oid ∧ r.document ∈ coll := by
  have hrec : incremental_get_records coll startDateTs bookmark addMetadata now
      = (findIdGtSorted coll (some S)).map (fun d =>
          { _id := renderOid d.oid
            document := d
            sdcBatchedAt := if addMetadata then some now else none }) := by
    unfold incremental_get_records
    rw [hS]
  have hnodup_l : List.Pairwise (fun a b : SourceDoc => a.oid ≠ b.oid)
      (findIdGtSorted coll (some S)) := by
    have hsub : (coll.filter (matchesIdGt (some S))).Sublist coll :=
      List.filter_sublist coll
    have hnd_f : ((coll.filter (matchesIdGt (some S))).map SourceDoc.oid).Nodup :=
      List.Pairwise.sublist (hsub.map SourceDoc.oid) hnd
    have hperm := (perm_findIdGtSorted coll (some S)).map SourceDoc.oid
    exact List.pairwise_map.mp (hperm.nodup_iff.mpr hnd_f)
  have hpl : List.Pairwise (fun a b : SourceDoc => a.oid < b.oid)
      (findIdGtSorted coll (some S)) :=
    ((sorted_findIdGtSorted coll (some S)).and hnodup_l).imp
      fun h => lt_of_le_of_ne h.1 h.2
  refine ⟨?_, ?_, ?_⟩
  · rw [hrec]
    have h1 : (((findIdGtSorted coll (some S)).map fun d =>
        ({ _id := renderOid d.oid
           document := d
           sdcBatchedAt := if addMetadata then some now else none } : IncRecord)).map
          IncRecord.document) = findIdGtSorted coll (some S) := by
      rw [List.map_map]
      exact List.map_id _
    rw [h1, ← matchesIdGt_some S]
    exact perm_findIdGtSorted coll (some S)
  · rw [hrec, List.chain'_map]
    show List.Chain' (fun a b : SourceDoc => a.oid < b.oid) (findIdGtSorted coll (some S))
    exact List.chain'_iff_pairwise.mpr hpl
  · intro r hr
    rw [hrec] at hr
    obtain ⟨d, hd, rfl⟩ := List.mem_map.mp hr
    refine ⟨rfl, ?_⟩
    have hdf : d ∈ coll.filter (matchesIdGt (some S)) :=
      (perm_findIdGtSorted coll (some S)).mem_iff.mp hd
    exact (List.mem_filter.mp hdf).1

/-- Witness for C1 at the spec's concrete scenario A: no bookmark,
`start_date` 1970-01-01 (epoch second 0), three documents with ascending
identifiers 1, 2, 3. -/
theorem C1_incremental_exact_witness :
    ((incremental_get_records [⟨1, "a"⟩, ⟨2, "b"⟩, ⟨3, "c"⟩] 0 none false "t").map
        IncRecord.document).Perm
      ([⟨1, "a"⟩, ⟨2, "b"⟩, ⟨3, "c"⟩].filter fun d => decide (0 < d.oid))
    ∧ List.Chain' (fun r1 r2 => r1.document.oid < r2.document.oid)
        (incremental_get_records [⟨1, "a"⟩, ⟨2, "b"⟩, ⟨3, "c"⟩] 0 none false "t")
    ∧ ∀ r ∈ incremental_get_records [⟨1, "a"⟩, ⟨2, "b"⟩, ⟨3, "c"⟩] 0 none false "t",
        r._id = renderOid r.document.oid
          ∧ r.document ∈ [(⟨1, "a"⟩ : SourceDoc), ⟨2, "b"⟩, ⟨3, "c"⟩] :=
  C1_incremental_exact [⟨1, "a"⟩, ⟨2, "b"⟩, ⟨3, "c"⟩] 0 none false "t" 0 rfl (by decide)

/-- Claim C4 fails on the code: after `ObjectId(bookmark)` raises `InvalidId`,
the code only logs the warning and leaves `start_date = None` — the `else`
branch deriving the start from the configured `start_date` is not reached —
so the query filter becomes `{"_id": {"$gt": null}}` and the run silently
yields nothing, although the same collection with the bookmark absent (the
claimed fallback) yields a record. -/
theorem C4_unparseable_bookmark_skips_everything :
    incrementalStart 0 (some "zz") = none
    ∧ incremental_get_records [⟨oidFromTimestamp 86400, "d"⟩] 0 (some "zz") false "t" = []
    ∧ incremental_get_records [⟨oidFromTimestamp 86400, "d"⟩] 0 none false "t" ≠ [] := by
  refine ⟨rfl, rfl, ?_⟩
  decide

/-- In unsorted mode every advance overwrites, so a nonempty run of advances
stores the last value and never errors. -/
theorem advanceAll_unsorted_getLast? {α : Type} [LinearOrder α] {c : StreamConfig}
    (hm : c.replication_method = REPLICATION_INCREMENTAL
      ∨ c.replication_method = REPLICATION_LOG_BASED)
    (hk : c.replication_key.getD "" ≠ "") (hts : treatAsSorted c = false) :
    ∀ (l : List α), l ≠ [] → ∀ (st : Option α),
      advanceAll c st l = ⟨l.getLast?, none⟩ := by
  intro l
  induction l with
  | nil => intro h; exact absurd rfl h
  | cons v vs ih =>
    intro _ st
    have hstep : _increment_stream_state c st v = ⟨some v, none⟩ := by
      rw [increment_stream_state_valid hm hk, hts]
      cases st with
      | none => rfl
      | some s => simp [increment_state]
    have hred : advanceAll c st (v :: vs) = advanceAll c (some v) vs := by
      simp only [advanceAll, hstep]
    cases vs with
    | nil => rw [hred]; rfl
    | cons w ws => rw [hred, ih (List.cons_ne_nil w ws) (some v), List.getLast?_cons_cons]

/-- In a list that is pairwise strictly increasing on `oid`, every member's
`oid` is at most the last member's `oid`. -/
theorem oid_le_getLast_of_pairwise :
    ∀ (l : List SourceDoc) (h : l ≠ []),
      List.Pairwise (fun a b => a.oid < b.oid) l →
      ∀ d ∈ l, d.oid ≤ (l.getLast h).oid := by
  intro l
  induction l with
  | nil => intro h; exact absurd rfl h
  | cons a t ih =>
    intro _ hp d hd
    cases t with
    | nil =>
      rcases List.mem_cons.mp hd with rfl | hmem
      · exact le_refl _
      · exact absurd hmem (List.not_mem_nil d)
    | cons b t2 =>
      rw [List.getLast_cons (List.cons_ne_nil b t2)]
      rcases List.mem_cons.mp hd with rfl | hmem
      · exact le_of_lt
          (List.rel_of_pairwise_cons hp (List.getLast_mem (List.cons_ne_nil b t2)))
      · exact ih (List.cons_ne_nil b t2) (List.Pairwise.of_cons hp) d hmem

/-- Claim C8: in Incremental mode over a fixed snapshot with strictly
increasing identifiers, running `get_records` to completion, folding each
emitted record through `_increment_stream_state` (as the SDK does) to obtain
the bookmark, and re-running `get_records` with that bookmark yields exactly
zero additional records. -/
theorem C8_incremental_idempotent_tail (coll : List SourceDoc) (startDateTs : Nat)
    (addMetadata : Bool) (now : String) (bm : String)
    (hchain : List.Chain' (fun a b => a.oid < b.oid) coll)
    (hbound : ∀ d ∈ coll, d.oid < 16 ^ 24)
    (hne : incremental_get_records coll startDateTs none addMetadata now ≠ [])
    (hbm : (advanceAll collectionStreamConfig none
        ((incremental_get_records coll startDateTs none addMetadata now).map
          IncRecord._id)).stored = some bm) :
    incremental_get_records coll startDateTs (some bm) addMetadata now = [] := by
  have hPair : List.Pairwise (fun a b : SourceDoc => a.oid < b.oid) coll :=
    List.chain'_iff_pairwise.mp hchain
  have hstart : incrementalStart startDateTs none
      = some (oidFromTimestamp startDateTs) := rfl
  have hPairF : List.Pairwise (fun a b : SourceDoc => a.oid < b.oid)
      (coll.filter (matchesIdGt (some (oidFromTimestamp startDateTs)))) :=
    hPair.filter _
  have hsortedF : List.Sorted (fun a b : SourceDoc => a.oid ≤ b.oid)
      (coll.filter (matchesIdGt (some (oidFromTimestamp startDateTs)))) :=
    hPairF.imp fun h => le_of_lt h
  have hfind : findIdGtSorted coll (some (oidFromTimestamp startDateTs))
      = coll.filter (matchesIdGt (some (oidFromTimestamp startDateTs))) :=
    hsortedF.insertionSort_eq
  have hrec1 : incremental_get_records coll startDateTs none addMetadata now
      = (coll.filter (matchesIdGt (some (oidFromTimestamp startDateTs)))).map (fun d =>
          { _id := renderOid d.oid
            document := d
            sdcBatchedAt := if addMetadata then some now else none }) := by
    unfold incremental_get_records
    rw [hstart, hfind]
  have hfne : coll.filter (matchesIdGt (some (oidFromTimestamp startDateTs))) ≠ [] := by
    intro hcontra
    apply hne
    rw [hrec1, hcontra]
    rfl
  have hids : (incremental_get_records coll startDateTs none addMetadata now).map
        IncRecord._id
      = (coll.filter (matchesIdGt (some (oidFromTimestamp startDateTs)))).map
          (fun d => renderOid d.oid) := by
    rw [hrec1, List.map_map]
    rfl
  have hlistne : ((coll.filter (matchesIdGt (some (oidFromTimestamp startDateTs)))).map
      (fun d => renderOid d.oid)) ≠ [] := by
    simpa using hfne
  have hadv := advanceAll_unsorted_getLast? (c := collectionStreamConfig)
    (Or.inl rfl) (by decide) (by decide) _ hlistne none
  rw [hids, hadv] at hbm
  have hbm2 : ((coll.filter (matchesIdGt (some (oidFromTimestamp startDateTs)))).map
      (fun d => renderOid d.oid)).getLast? = some bm := hbm
  rw [List.getLast?_map, List.getLast?_eq_getLast _ hfne] at hbm2
  have hbmeq : renderOid ((coll.filter
      (matchesIdGt (some (oidFromTimestamp startDateTs)))).getLast hfne).oid = bm := by
    rw [Option.map_some'] at hbm2
    exact Option.some.inj hbm2
  have hLmem : (coll.filter (matchesIdGt (some (oidFromTimestamp startDateTs)))).getLast
      hfne ∈ coll :=
    (List.mem_filter.mp (List.getLast_mem hfne)).1
  have hLlt : ((coll.filter
      (matchesIdGt (some (oidFromTimestamp startDateTs)))).getLast hfne).oid < 16 ^ 24 :=
    hbound _ hLmem
  have hstart2 : incrementalStart startDateTs (some bm)
      = some (((coll.filter
          (matchesIdGt (some (oidFromTimestamp startDateTs)))).getLast hfne).oid) := by
    rw [← hbmeq]
    show (if renderOid ((coll.filter
        (matchesIdGt (some (oidFromTimestamp startDateTs)))).getLast hfne).oid = ""
      then some (oidFromTimestamp startDateTs)
      else parseOid (renderOid ((coll.filter
        (matchesIdGt (some (oidFromTimestamp startDateTs)))).getLast hfne).oid)) = _
    rw [if_neg (renderOid_ne_empty _)]
    exact parseOid_renderOid hLlt
  have hSL : oidFromTimestamp startDateTs < ((coll.filter
      (matchesIdGt (some (oidFromTimestamp startDateTs)))).getLast hfne).oid := by
    have hmL := (List.mem_filter.mp (List.getLast_mem hfne)).2
    simpa [matchesIdGt] using hmL
  have hempty : coll.filter (matchesIdGt (some (((coll.filter
      (matchesIdGt (some (oidFromTimestamp startDateTs)))).getLast hfne).oid))) = [] := by
    rw [List.filter_eq_nil_iff]
    intro d hd
    simp only [matchesIdGt, decide_eq_true_eq]
    rcases lt_or_le (oidFromTimestamp startDateTs) d.oid with hgt | hle
    · have hdf : d ∈ coll.filter (matchesIdGt (some (oidFromTimestamp startDateTs))) := by
        rw [List.mem_filter]
        exact ⟨hd, by simp [matchesIdGt, hgt]⟩
      have := oid_le_getLast_of_pairwise _ hfne hPairF d hdf
      omega
    · omega
  unfold incremental_get_records
  rw [hstart2]
  unfold findIdGtSorted
  rw [hempty]
  rfl

/-- Witness for C8 at a concrete input: two documents with identifiers 1 and
2, run from scratch, bookmark the rendered identifier of the last record; the
re-run yields nothing. -/
theorem C8_incremental_idempotent_tail_witness :
    incremental_get_records [⟨1, "a"⟩, ⟨2, "b"⟩] 0
        (some "000000000000000000000002") false "t" = [] :=
  C8_incremental_idempotent_tail [⟨1, "a"⟩, ⟨2, "b"⟩] 0 false "t"
    "000000000000000000000002" (by simp [List.chain'_cons]) (by decide) (by decide)
    (by decide)

end TapMongodb
